import Mathlib

/-!
# CCU8-triggered VADC measurement (`main.c`)

A shallow embedding of the interrupt handler `ADC_CONVERSION_EVENT_HANDLER`
and of `main` (board bring-up followed by the polling loop), together with the
properties of the two shared variables `adc_result` and `end_of_conversion`,
the user LED and the debug UART.
-/

namespace CCU8VADC

/-! ## Constants of `main.c` -/

/-- Source line 66: `#define RES_REG_NUMBER (0)`. -/
def RES_REG_NUMBER : Nat := 0

/-- Source line 67: `#define ADC_MID_OF_RANGE 2047`. -/
def ADC_MID_OF_RANGE : Nat := 2047

/-- Modelled from the spec: the typedef `XMC_VADC_RESULT_SIZE_t` lives in the
XMC peripheral library header, not in `main.c`.  The spec calls Latest Sample
an unsigned integer no larger than a machine word; the library declares it as a
16-bit unsigned integer, so its values are the naturals below `2 ^ 16`. -/
def XMC_VADC_RESULT_SIZE_BITS : Nat := 16

/-- Modelled from the spec: `XMC_VADC_GROUP_GetResult` is a function of the XMC
peripheral library, not of `main.c`.  The spec has the handler read the
completed conversion result from the hardware result register with the given
index; `group` gives, for each register index of the ADC group, the result it
holds. -/
def XMC_VADC_GROUP_GetResult (group : Nat → Nat) (res_reg : Nat) : Nat :=
  group res_reg

/-- Modelled from the spec: `CY_RSLT_SUCCESS` comes from the board support
headers, not from `main.c`; it is the one value of `cy_rslt_t` that reports a
successful initialisation. -/
def CY_RSLT_SUCCESS : Nat := 0

/-! ## Shared variables and the two output devices -/

/-- The two globals of `main.c` (lines 72-73) and the outputs the program
drives: the level of the `CYBSP_USER_LED` pin and the characters sent so far on
the debug UART (oldest first). -/
structure State where
  adc_result : Nat
  end_of_conversion : Nat
  led_high : Bool
  uart : List Char
deriving DecidableEq

/-- The call `XMC_GPIO_SetOutputHigh(CYBSP_USER_LED_PORT, CYBSP_USER_LED_PIN)`:
the LED pin is driven high. -/
def XMC_GPIO_SetOutputHigh (s : State) : State :=
  { s with led_high := true }

/-- The call `XMC_GPIO_SetOutputLow(CYBSP_USER_LED_PORT, CYBSP_USER_LED_PIN)`:
the LED pin is driven low. -/
def XMC_GPIO_SetOutputLow (s : State) : State :=
  { s with led_high := false }

/-! ## The conversion handler, statement by statement -/

/-- Line 93: `adc_result = XMC_VADC_GROUP_GetResult(VADC_GROUP_HW, RES_REG_NUMBER);`
where `VADC_GROUP_HW` gives the contents of the result registers of the group
at the time of the call. -/
def handler_read_result (VADC_GROUP_HW : Nat → Nat) (s : State) : State :=
  { s with adc_result := XMC_VADC_GROUP_GetResult VADC_GROUP_HW RES_REG_NUMBER }

/-- Lines 95-110: the threshold test on `adc_result` and the LED write.  The
flag `xmc4` is the build condition `UC_FAMILY == XMC4`. -/
def handler_drive_led (xmc4 : Bool) (s : State) : State :=
  if s.adc_result ≥ ADC_MID_OF_RANGE then
    (if xmc4 then XMC_GPIO_SetOutputHigh s else XMC_GPIO_SetOutputLow s)
  else
    (if xmc4 then XMC_GPIO_SetOutputLow s else XMC_GPIO_SetOutputHigh s)

/-- Line 112: `end_of_conversion=1;`. -/
def handler_set_flag (s : State) : State :=
  { s with end_of_conversion := 1 }

/-- Lines 90-113: the whole handler, its three statements in source order. -/
def ADC_CONVERSION_EVENT_HANDLER (xmc4 : Bool) (VADC_GROUP_HW : Nat → Nat) (s : State) :
    State :=
  handler_set_flag (handler_drive_led xmc4 (handler_read_result VADC_GROUP_HW s))

/-- The indicator is "on" when the pin is high on the XMC4 build and when it is
low on the other build. -/
def led_on (xmc4 : Bool) (s : State) : Bool :=
  s.led_high == xmc4

/-! ## `printf("ADC VALUE: %d\r\n", adc_result)` -/

/-- The `int` object `printf` receives for its variadic argument: a word of 32
bits read as two's complement.  A 16-bit unsigned value is promoted to `int`
unchanged. -/
def promoted_int (n : Nat) : Int :=
  if n % 2 ^ 32 < 2 ^ 31 then Int.ofNat (n % 2 ^ 32)
  else Int.ofNat (n % 2 ^ 32) - 2 ^ 32

/-- Modelled from the spec: `printf` belongs to the C library, not to `main.c`.
The conversion `%d` writes a signed decimal number: a minus sign for a negative
argument, then the decimal digits without leading zeros. -/
def format_d (x : Int) : List Char :=
  if x < 0 then '-' :: Nat.toDigits 10 x.natAbs else Nat.toDigits 10 x.toNat

/-- The characters `printf("ADC VALUE: %d\r\n", x)` sends for the argument `x`. -/
def printf_ADC_VALUE (x : Int) : List Char :=
  ['A', 'D', 'C', ' ', 'V', 'A', 'L', 'U', 'E', ':', ' '] ++ format_d x
    ++ [Char.ofNat 13, Char.ofNat 10]

/-- The line the spec prescribes for a sample `n`: the label, the decimal
digits of `n`, carriage return, line feed. -/
def ADC_VALUE_line (n : Nat) : List Char :=
  "ADC VALUE: ".toList ++ Nat.toDigits 10 n ++ "\r\n".toList

/-- The number a string of decimal digit characters denotes, most significant
digit first. -/
def decimal_value (cs : List Char) : Nat :=
  cs.foldl (fun acc c => 10 * acc + (c.toNat - 48)) 0

/-! ## One pass through the body of `while(1)` without preemption -/

/-- Lines 148-152: test the flag; when it is set, print the sample and clear
the flag. -/
def loop_iteration (s : State) : State :=
  if s.end_of_conversion ≠ 0 then
    { s with uart := s.uart ++ printf_ADC_VALUE (promoted_int s.adc_result),
             end_of_conversion := 0 }
  else s

/-- Repeat the loop body `k` times with no interrupt in between. -/
def loop_iterations : Nat → State → State
  | 0, s => s
  | k + 1, s => loop_iterations k (loop_iteration s)

/-! ## `main` as a small-step machine -/

/-- Program points of `main` (lines 130-154).  The `printf` statement is
split into the evaluation of its argument (a volatile read of `adc_result`) and
the call proper, because an interrupt can be taken between the two. -/
inductive MainPC where
  | call_cybsp_init
  | test_result
  | cy_assert
  | trap
  | call_retarget_io_init
  | call_NVIC_EnableIRQ
  | loop_test
  | loop_load
  | loop_printf
  | loop_clear
deriving DecidableEq

/-- Calls into the board support layer, as they appear in `main`. -/
inductive Call where
  | cybsp_init
  | cy_retarget_io_init
  | NVIC_EnableIRQ
deriving DecidableEq

/-- Modelled from the spec: `CY_ASSERT` is a macro of `cy_utils.h`, which is
not part of `main.c`.  The spec says a failed initialisation halts at once in a
diagnosable trap state with no retry: a false condition moves control to the
trap, a true one lets it continue at `next`. -/
def CY_ASSERT (cond : Bool) (next : MainPC) : MainPC :=
  if cond then next else MainPC.trap

/-- The data state, the control state of `main`, its locals, the interrupt
enable bit of the ADC line and the log of board-support calls (oldest first). -/
structure Machine where
  st : State
  pc : MainPC
  result : Nat
  arg : Nat
  irq_enabled : Bool
  calls : List Call
deriving DecidableEq

/-- One statement of `main`; `bsp` is the value `cybsp_init()` returns. -/
def main_step (bsp : Nat) (m : Machine) : Machine :=
  match m.pc with
  | MainPC.call_cybsp_init =>
      { m with result := bsp, calls := m.calls ++ [Call.cybsp_init],
               pc := MainPC.test_result }
  | MainPC.test_result =>
      if m.result ≠ CY_RSLT_SUCCESS then { m with pc := MainPC.cy_assert }
      else { m with pc := MainPC.call_retarget_io_init }
  | MainPC.cy_assert =>
      { m with pc := CY_ASSERT false MainPC.call_retarget_io_init }
  | MainPC.trap => m
  | MainPC.call_retarget_io_init =>
      { m with calls := m.calls ++ [Call.cy_retarget_io_init],
               pc := MainPC.call_NVIC_EnableIRQ }
  | MainPC.call_NVIC_EnableIRQ =>
      { m with irq_enabled := true, calls := m.calls ++ [Call.NVIC_EnableIRQ],
               pc := MainPC.loop_test }
  | MainPC.loop_test =>
      if m.st.end_of_conversion ≠ 0 then { m with pc := MainPC.loop_load }
      else { m with pc := MainPC.loop_test }
  | MainPC.loop_load =>
      { m with arg := m.st.adc_result, pc := MainPC.loop_printf }
  | MainPC.loop_printf =>
      { m with st := { m.st with uart := m.st.uart ++ printf_ADC_VALUE (promoted_int m.arg) },
               pc := MainPC.loop_clear }
  | MainPC.loop_clear =>
      { m with st := { m.st with end_of_conversion := 0 }, pc := MainPC.loop_test }

/-- What the scheduler can do next: let `main` execute one statement, or take
the ADC interrupt while the result registers hold `group`; the handler then
runs to completion. -/
inductive Event where
  | main
  | irq (group : Nat → Nat)

/-- The interrupt event at which result register 0, and every other result
register, holds `v`. -/
def Event.sample (v : Nat) : Event :=
  Event.irq (fun _ => v)

/-- One step of the whole system.  An interrupt is taken only when its line
has been enabled; otherwise the event leaves the machine as it is. -/
def step (xmc4 : Bool) (bsp : Nat) (m : Machine) : Event → Machine
  | Event.main => main_step bsp m
  | Event.irq group =>
      if m.irq_enabled then { m with st := ADC_CONVERSION_EVENT_HANDLER xmc4 group m.st }
      else m

/-- Run a schedule, first event first. -/
def run (xmc4 : Bool) (bsp : Nat) : Machine → List Event → Machine
  | m, [] => m
  | m, e :: es => run xmc4 bsp (step xmc4 bsp m e) es

/-- The machine at reset: both globals zero (lines 72-73), nothing sent, the
interrupt line disabled, `main` about to call `cybsp_init`.  The level of the
LED pin at reset is the parameter `led0`. -/
def startup (led0 : Bool) : Machine :=
  { st := { adc_result := 0, end_of_conversion := 0, led_high := led0, uart := [] },
    pc := MainPC.call_cybsp_init, result := 0, arg := 0, irq_enabled := false,
    calls := [] }

/-- The program points inside `while(1)`. -/
def in_loop : MainPC → Bool
  | MainPC.loop_test => true
  | MainPC.loop_load => true
  | MainPC.loop_printf => true
  | MainPC.loop_clear => true
  | _ => false

/-! ## History of an execution

The history records what happened along a schedule; it is computed beside the
machine and never read by it. -/

/-- One reported number: the value printed, and how many handler invocations
had completed when `main` loaded that value. -/
structure Report where
  value : Nat
  seq : Nat
deriving DecidableEq

/-- The values read by the handler invocations so far (oldest first), the
number of invocations completed at the latest argument load, the reports made
(oldest first), and where `main` stood when the latest invocation ran. -/
structure History where
  samples : List Nat
  load_seq : Nat
  reports : List Report
  last_irq_pc : Option MainPC
deriving DecidableEq

/-- The history before anything has run. -/
def History.empty : History :=
  { samples := [], load_seq := 0, reports := [], last_irq_pc := none }

/-- Extend the history by the event `e` taken in machine state `m`. -/
def observe (m : Machine) (h : History) : Event → History
  | Event.irq group =>
      if m.irq_enabled then
        { h with samples := h.samples ++ [XMC_VADC_GROUP_GetResult group RES_REG_NUMBER],
                 last_irq_pc := some m.pc }
      else h
  | Event.main =>
      match m.pc with
      | MainPC.loop_load => { h with load_seq := h.samples.length }
      | MainPC.loop_printf => { h with reports := h.reports ++ [⟨m.arg, h.load_seq⟩] }
      | _ => h

/-- Run a schedule and keep the history beside the machine. -/
def run_hist (xmc4 : Bool) (bsp : Nat) : Machine × History → List Event → Machine × History
  | mh, [] => mh
  | mh, e :: es => run_hist xmc4 bsp (step xmc4 bsp mh.1 e, observe mh.1 mh.2 e) es

/-- The serial text that a list of reports amounts to. -/
def reports_text : List Report → List Char
  | [] => []
  | r :: rs => printf_ADC_VALUE (promoted_int r.value) ++ reports_text rs

/-- The latest handler invocation ran after `main` had loaded the `printf`
argument and before it cleared the flag. -/
def irq_in_window (h : History) : Bool :=
  match h.last_irq_pc with
  | some MainPC.loop_printf => true
  | some MainPC.loop_clear => true
  | _ => false

/-- The latest sample has been reported: some report was loaded after the
latest handler invocation had completed. -/
def latest_reported (h : History) : Bool :=
  h.reports.any (fun r => r.seq == h.samples.length)

/-! ## Bring-up: progress measure and what holds along an execution -/

/-- How far the bring-up part of `main` has advanced at a program point; the
trap and the loop are its two ends. -/
def bringup_stage : MainPC → Nat
  | MainPC.call_cybsp_init => 0
  | MainPC.test_result => 1
  | MainPC.cy_assert => 2
  | MainPC.call_retarget_io_init => 2
  | MainPC.call_NVIC_EnableIRQ => 3
  | _ => 4

/-- The number of statements of `main` in a schedule. -/
def main_events : List Event → Nat
  | [] => 0
  | Event.main :: es => main_events es + 1
  | Event.irq _ :: es => main_events es

/-- What holds along every execution in which `cybsp_init` fails. -/
def failed_bringup (led0 : Bool) (bsp : Nat) (m : Machine) : Prop :=
  m.st = (startup led0).st ∧ m.irq_enabled = false ∧
  match m.pc with
  | MainPC.call_cybsp_init => m.calls = []
  | MainPC.test_result => m.calls = [Call.cybsp_init] ∧ m.result = bsp
  | MainPC.cy_assert => m.calls = [Call.cybsp_init]
  | MainPC.trap => m.calls = [Call.cybsp_init]
  | _ => False

/-- What holds along every execution in which `cybsp_init` succeeds. -/
def good_bringup (m : Machine) : Prop :=
  m.irq_enabled = in_loop m.pc ∧
  match m.pc with
  | MainPC.call_cybsp_init => m.calls = [] ∧ m.st.uart = []
  | MainPC.test_result =>
      m.calls = [Call.cybsp_init] ∧ m.result = CY_RSLT_SUCCESS ∧ m.st.uart = []
  | MainPC.call_retarget_io_init => m.calls = [Call.cybsp_init] ∧ m.st.uart = []
  | MainPC.call_NVIC_EnableIRQ =>
      m.calls = [Call.cybsp_init, Call.cy_retarget_io_init] ∧ m.st.uart = []
  | MainPC.cy_assert => False
  | MainPC.trap => False
  | _ => m.calls = [Call.cybsp_init, Call.cy_retarget_io_init, Call.NVIC_EnableIRQ]

/-! ## Reading the history -/

/-- The value read by handler invocation number `k`, counted from 1. -/
def sample_number (samples : List Nat) (k : Nat) : Option Nat :=
  if k = 0 then none else samples[k - 1]?

/-- What holds of machine and history along every execution from reset. -/
def consistent (m : Machine) (h : History) : Prop :=
  m.st.adc_result = (h.samples.getLast?).getD 0
  ∧ (m.st.end_of_conversion ≠ 0 → h.samples ≠ [])
  ∧ (∀ r ∈ h.reports, sample_number h.samples r.seq = some r.value)
  ∧ m.st.uart = reports_text h.reports
  ∧ match m.pc with
    | MainPC.loop_test =>
        m.irq_enabled = true
        ∧ h.reports.length + (if m.st.end_of_conversion ≠ 0 then 1 else 0) ≤ h.samples.length
        ∧ (m.st.end_of_conversion = 0 →
            h.samples = [] ∨ latest_reported h = true ∨ irq_in_window h = true)
    | MainPC.loop_load =>
        m.irq_enabled = true ∧ m.st.end_of_conversion ≠ 0
        ∧ h.reports.length + 1 ≤ h.samples.length
    | MainPC.loop_printf =>
        m.irq_enabled = true ∧ m.st.end_of_conversion ≠ 0
        ∧ h.reports.length + 1 ≤ h.samples.length
        ∧ sample_number h.samples h.load_seq = some m.arg
        ∧ (h.load_seq = h.samples.length ∨ irq_in_window h = true)
    | MainPC.loop_clear =>
        m.irq_enabled = true ∧ m.st.end_of_conversion ≠ 0
        ∧ h.reports.length ≤ h.samples.length
        ∧ (latest_reported h = true ∨ irq_in_window h = true)
    | _ =>
        m.irq_enabled = false ∧ m.st.end_of_conversion = 0 ∧ h.samples = []
        ∧ h.reports = []

/-! ## Example schedules -/

/-- Bring-up, a conversion with sample 100, the loop tests the flag and loads
the sample, a second conversion with sample 200 arrives, then `printf` runs. -/
def schedule_second_sample_before_print : List Event :=
  [Event.main, Event.main, Event.main, Event.main, Event.sample 100, Event.main, Event.main,
   Event.sample 200, Event.main]

/-- Bring-up, a conversion with sample 100, the loop tests the flag, loads the
sample and prints it, a second conversion with sample 200 arrives between the
`printf` and `end_of_conversion=0`, then the flag is cleared. -/
def schedule_second_sample_before_clear : List Event :=
  [Event.main, Event.main, Event.main, Event.main, Event.sample 100, Event.main, Event.main,
   Event.main, Event.sample 200, Event.main]

/-- Bring-up, one conversion with sample 2047, one full pass through the loop
body, and two further tests of the flag. -/
def schedule_one_sample : List Event :=
  [Event.main, Event.main, Event.main, Event.main, Event.sample 2047, Event.main, Event.main,
   Event.main, Event.main, Event.main, Event.main]

/-- Interrupt requests and statements of `main` when `cybsp_init` has failed. -/
def schedule_after_failure : List Event :=
  [Event.sample 7, Event.main, Event.main, Event.sample 3000, Event.main, Event.main,
   Event.sample 9]

/-! ## Facts about the building blocks -/

theorem promoted_int_of_result (n : Nat) (hn : n < 2 ^ XMC_VADC_RESULT_SIZE_BITS) :
    promoted_int n = Int.ofNat n := by
  have h16 : n < 2 ^ 16 := hn
  have hmod : n % 2 ^ 32 = n := Nat.mod_eq_of_lt (by omega)
  have hlt : n < 2 ^ 31 := by omega
  unfold promoted_int
  rw [hmod, if_pos hlt]

theorem format_d_ofNat (n : Nat) : format_d (Int.ofNat n) = Nat.toDigits 10 n := by
  simp [format_d]

theorem printf_of_result (n : Nat) (hn : n < 2 ^ XMC_VADC_RESULT_SIZE_BITS) :
    printf_ADC_VALUE (promoted_int n) = ADC_VALUE_line n := by
  rw [promoted_int_of_result n hn]
  simp only [printf_ADC_VALUE, format_d_ofNat, ADC_VALUE_line]
  rfl

theorem digitChar_decimal (n : Nat) :
    (Nat.digitChar (n % 10)).isDigit = true
      ∧ (Nat.digitChar (n % 10)).toNat - 48 = n % 10
      ∧ (n % 10 ≠ 0 → Nat.digitChar (n % 10) ≠ '0') := by
  have hk : n % 10 < 10 := Nat.mod_lt n (by decide)
  generalize n % 10 = k at hk
  interval_cases k <;> decide

theorem toDigitsCore_decimal :
    ∀ (fuel n : Nat) (ds : List Char), n < fuel →
      ∃ pre : List Char, Nat.toDigitsCore 10 fuel n ds = pre ++ ds
        ∧ (∀ c ∈ pre, c.isDigit = true)
        ∧ decimal_value pre = n
        ∧ pre ≠ []
        ∧ (n ≠ 0 → pre.head? ≠ some '0') := by
  intro fuel
  induction fuel with
  | zero => intro n ds h; exact absurd h (Nat.not_lt_zero n)
  | succ fuel ih =>
    intro n ds hlt
    obtain ⟨hdig, hval, hnz⟩ := digitChar_decimal n
    simp only [Nat.toDigitsCore]
    split_ifs with hq
    · refine ⟨[Nat.digitChar (n % 10)], rfl, ?_, ?_, by simp, ?_⟩
      · intro c hc
        rw [List.mem_singleton.mp hc]
        exact hdig
      · have hn : n % 10 = n := by omega
        simp only [decimal_value, List.foldl_cons, List.foldl_nil, hval]
        omega
      · intro hn0
        have hn : n % 10 ≠ 0 := by omega
        simpa using hnz hn
    · have hlt' : n / 10 < fuel := by omega
      obtain ⟨pre, hpre, hall, hv, hne, hhead⟩ :=
        ih (n / 10) (Nat.digitChar (n % 10) :: ds) hlt'
      refine ⟨pre ++ [Nat.digitChar (n % 10)], by rw [hpre]; simp, ?_, ?_, by simp, ?_⟩
      · intro c hc
        rcases List.mem_append.mp hc with h1 | h2
        · exact hall c h1
        · rw [List.mem_singleton.mp h2]
          exact hdig
      · unfold decimal_value at hv ⊢
        rw [List.foldl_append, hv]
        simp only [List.foldl_cons, List.foldl_nil, hval]
        omega
      · intro _
        cases pre with
        | nil => exact absurd rfl hne
        | cons a pre => simpa using hhead hq

theorem toDigits_decimal (n : Nat) :
    (∀ c ∈ Nat.toDigits 10 n, c.isDigit = true)
      ∧ decimal_value (Nat.toDigits 10 n) = n
      ∧ (n ≠ 0 → (Nat.toDigits 10 n).head? ≠ some '0') := by
  obtain ⟨pre, hpre, hall, hv, _, hhead⟩ :=
    toDigitsCore_decimal (n + 1) n [] (Nat.lt_succ_self n)
  have h : Nat.toDigits 10 n = pre := by
    unfold Nat.toDigits
    rw [hpre, List.append_nil]
  rw [h]
  exact ⟨hall, hv, hhead⟩

theorem handler_fields (xmc4 : Bool) (group : Nat → Nat) (s : State) :
    (ADC_CONVERSION_EVENT_HANDLER xmc4 group s).adc_result = group RES_REG_NUMBER
      ∧ (ADC_CONVERSION_EVENT_HANDLER xmc4 group s).end_of_conversion = 1
      ∧ (ADC_CONVERSION_EVENT_HANDLER xmc4 group s).uart = s.uart := by
  unfold ADC_CONVERSION_EVENT_HANDLER handler_set_flag handler_drive_led
    handler_read_result XMC_GPIO_SetOutputHigh XMC_GPIO_SetOutputLow XMC_VADC_GROUP_GetResult
  cases xmc4 <;> by_cases h : ADC_MID_OF_RANGE ≤ group RES_REG_NUMBER <;> simp [h]

theorem loop_iteration_of_clear (s : State) (h : s.end_of_conversion = 0) :
    loop_iteration s = s := by
  simp [loop_iteration, h]

theorem loop_iteration_flag (s : State) : (loop_iteration s).end_of_conversion = 0 := by
  unfold loop_iteration
  split_ifs with h
  · rfl
  · exact not_not.mp h

theorem loop_iterations_of_clear (k : Nat) (s : State) (h : s.end_of_conversion = 0) :
    loop_iterations k s = s := by
  induction k with
  | zero => rfl
  | succ k ih => simp [loop_iterations, loop_iteration_of_clear s h, ih]

/-! ## The conversion handler -/

/-- C1: after one invocation of the handler, with `v` the sample held in
result register 0, the indicator is on exactly when `v >= 2047` (on meaning pin
high on the XMC4 build, pin low on the other); this holds for every `v`, hence
on the valid range 0..4095, and in particular 2047 gives on while 2046 and 0
give off, on both builds. -/
theorem handler_led_on_iff_threshold :
    (∀ (xmc4 : Bool) (group : Nat → Nat) (s : State),
        led_on xmc4 (ADC_CONVERSION_EVENT_HANDLER xmc4 group s) = true ↔ 2047 ≤ group 0)
      ∧ (∀ (group : Nat → Nat) (s : State),
          (ADC_CONVERSION_EVENT_HANDLER true group s).led_high = true ↔ 2047 ≤ group 0)
      ∧ (∀ (group : Nat → Nat) (s : State),
          (ADC_CONVERSION_EVENT_HANDLER false group s).led_high = false ↔ 2047 ≤ group 0)
      ∧ (∀ (xmc4 : Bool) (s : State),
          led_on xmc4 (ADC_CONVERSION_EVENT_HANDLER xmc4 (fun _ => 2047) s) = true
            ∧ led_on xmc4 (ADC_CONVERSION_EVENT_HANDLER xmc4 (fun _ => 2046) s) = false
            ∧ led_on xmc4 (ADC_CONVERSION_EVENT_HANDLER xmc4 (fun _ => 0) s) = false) := by
  have key : ∀ (xmc4 : Bool) (group : Nat → Nat) (s : State),
      (ADC_CONVERSION_EVENT_HANDLER xmc4 group s).led_high
        = (if 2047 ≤ group 0 then xmc4 else !xmc4) := by
    intro xmc4 group s
    simp only [ADC_CONVERSION_EVENT_HANDLER, handler_set_flag, handler_drive_led,
      handler_read_result, XMC_GPIO_SetOutputHigh, XMC_GPIO_SetOutputLow, ADC_MID_OF_RANGE,
      XMC_VADC_GROUP_GetResult, RES_REG_NUMBER]
    cases xmc4 <;> by_cases h : 2047 ≤ group 0 <;> simp [h]
  refine ⟨?_, ?_, ?_, ?_⟩
  · intro xmc4 group s
    rw [led_on, key]
    cases xmc4 <;> by_cases h : 2047 ≤ group 0 <;> simp [h]
  · intro group s
    rw [key]
    by_cases h : 2047 ≤ group 0 <;> simp [h]
  · intro group s
    rw [key]
    by_cases h : 2047 ≤ group 0 <;> simp [h]
  · intro xmc4 s
    simp only [led_on, key]
    cases xmc4 <;> decide

/-- C2: whatever the prior Latest Sample and Ready Flag, one invocation of the
handler leaves `adc_result` equal to the value held in result register 0 and
`end_of_conversion = 1`, and sends nothing on the serial output. -/
theorem handler_publishes_sample (xmc4 : Bool) (group : Nat → Nat) (s : State) :
    (ADC_CONVERSION_EVENT_HANDLER xmc4 group s).adc_result = group 0
      ∧ (ADC_CONVERSION_EVENT_HANDLER xmc4 group s).end_of_conversion = 1
      ∧ (ADC_CONVERSION_EVENT_HANDLER xmc4 group s).uart = s.uart :=
  handler_fields xmc4 group s

/-! ## The reporting loop, run without preemption -/

/-- C3: when the Ready Flag is set and Latest Sample holds a value `n` of the
16-bit unsigned result type, one loop iteration appends exactly the label
`ADC VALUE: `, the decimal digits of `n`, carriage return and line feed to the
serial output (the digits are digit characters only, so no sign; they denote
`n`; the first is `0` only for `n = 0`), clears the flag, and leaves Latest
Sample and the LED as they were. -/
theorem loop_iteration_reports (s : State) (hflag : s.end_of_conversion ≠ 0)
    (hn : s.adc_result < 2 ^ XMC_VADC_RESULT_SIZE_BITS) :
    (loop_iteration s).uart
        = s.uart ++ ("ADC VALUE: ".toList ++ Nat.toDigits 10 s.adc_result ++ "\r\n".toList)
      ∧ (∀ c ∈ Nat.toDigits 10 s.adc_result, c.isDigit = true)
      ∧ decimal_value (Nat.toDigits 10 s.adc_result) = s.adc_result
      ∧ (s.adc_result ≠ 0 → (Nat.toDigits 10 s.adc_result).head? ≠ some '0')
      ∧ (loop_iteration s).end_of_conversion = 0
      ∧ (loop_iteration s).adc_result = s.adc_result
      ∧ (loop_iteration s).led_high = s.led_high := by
  have hp := printf_of_result s.adc_result hn
  simp only [ADC_VALUE_line] at hp
  obtain ⟨hd1, hd2, hd3⟩ := toDigits_decimal s.adc_result
  refine ⟨?_, hd1, hd2, hd3, ?_⟩
  · simp [loop_iteration, hflag, hp]
  · simp [loop_iteration, hflag]

/-- Witness for C3: the samples 2047 and 0 yield the lines `ADC VALUE: 2047`
and `ADC VALUE: 0`, each ended by carriage return and line feed. -/
theorem loop_iteration_reports_witness :
    (loop_iteration ⟨2047, 1, true, []⟩).uart = "ADC VALUE: 2047\r\n".toList
      ∧ (loop_iteration ⟨0, 1, false, ['x']⟩).uart = 'x' :: "ADC VALUE: 0\r\n".toList
      ∧ (loop_iteration ⟨2047, 1, true, []⟩).end_of_conversion = 0
      ∧ (Nat.toDigits 10 2047).head? ≠ some '0' :=
  ⟨(loop_iteration_reports ⟨2047, 1, true, []⟩ (by decide) (by decide)).1,
   (loop_iteration_reports ⟨0, 1, false, ['x']⟩ (by decide) (by decide)).1,
   (loop_iteration_reports ⟨2047, 1, true, []⟩ (by decide) (by decide)).2.2.2.2.1,
   (loop_iteration_reports ⟨2047, 1, true, []⟩ (by decide) (by decide)).2.2.2.1 (by decide)⟩

/-- C5: after two handler invocations, the first reading `v1` and the second
`v2` (a value of the result type) from result register 0, and no loop iteration
in between, the next loop iteration sends exactly one line, the one for `v2`,
and any number `k` of further loop iterations send nothing more, so nothing is
sent for the first sample. -/
theorem second_sample_overwrites_first (xmc4 : Bool) (group1 group2 : Nat → Nat) (s : State)
    (k : Nat) (hv2 : group2 0 < 2 ^ XMC_VADC_RESULT_SIZE_BITS) :
    (loop_iteration (ADC_CONVERSION_EVENT_HANDLER xmc4 group2
        (ADC_CONVERSION_EVENT_HANDLER xmc4 group1 s))).uart
        = s.uart ++ ADC_VALUE_line (group2 0)
      ∧ (loop_iterations k (loop_iteration (ADC_CONVERSION_EVENT_HANDLER xmc4 group2
          (ADC_CONVERSION_EVENT_HANDLER xmc4 group1 s)))).uart
        = s.uart ++ ADC_VALUE_line (group2 0) := by
  obtain ⟨_, _, hu1⟩ := handler_fields xmc4 group1 s
  obtain ⟨ha2, hf2, hu2⟩ :=
    handler_fields xmc4 group2 (ADC_CONVERSION_EVENT_HANDLER xmc4 group1 s)
  have h1 : (loop_iteration (ADC_CONVERSION_EVENT_HANDLER xmc4 group2
      (ADC_CONVERSION_EVENT_HANDLER xmc4 group1 s))).uart
      = s.uart ++ ADC_VALUE_line (group2 0) := by
    rw [← printf_of_result (group2 0) hv2]
    simp [loop_iteration, hf2, ha2, hu2, hu1, RES_REG_NUMBER]
  refine ⟨h1, ?_⟩
  rw [loop_iterations_of_clear k _ (loop_iteration_flag _)]
  exact h1

/-- Witness for C5: samples 100 then 2047 from reset values; one loop iteration
and three more leave exactly the line for 2047 on the serial output. -/
theorem second_sample_overwrites_first_witness :
    (loop_iterations 3 (loop_iteration (ADC_CONVERSION_EVENT_HANDLER true (fun _ => 2047)
        (ADC_CONVERSION_EVENT_HANDLER true (fun _ => 100) ⟨0, 0, false, []⟩)))).uart
      = "ADC VALUE: 2047\r\n".toList :=
  (second_sample_overwrites_first true (fun _ => 100) (fun _ => 2047) ⟨0, 0, false, []⟩ 3
    (by decide)).2

/-- C6: a loop iteration that finds the Ready Flag set consumes it: afterwards
the flag is clear, and it is still clear after any number `k` of further loop
iterations with no handler invocation in between; no statement of `main` ever
turns a clear flag into a set one. -/
theorem flag_stays_clear (s : State) (k : Nat) (hflag : s.end_of_conversion ≠ 0) :
    loop_iteration s ≠ s
      ∧ (loop_iteration s).end_of_conversion = 0
      ∧ (loop_iterations k (loop_iteration s)).end_of_conversion = 0
      ∧ (∀ (bsp : Nat) (m : Machine), m.st.end_of_conversion = 0 →
          (main_step bsp m).st.end_of_conversion = 0) := by
  refine ⟨?_, loop_iteration_flag s, ?_, ?_⟩
  · intro h
    exact hflag (h ▸ loop_iteration_flag s)
  · rw [loop_iterations_of_clear k _ (loop_iteration_flag s)]
    exact loop_iteration_flag s
  · intro bsp m h0
    obtain ⟨st, pc, result, arg, irq, calls⟩ := m
    have h0' : st.end_of_conversion = 0 := h0
    cases pc <;> simp only [main_step] <;> (try split_ifs) <;> exact h0'

/-- Witness for C6: a state with the flag set, followed by one loop iteration
and five more. -/
theorem flag_stays_clear_witness :
    (⟨2047, 1, true, []⟩ : State).end_of_conversion ≠ 0
      ∧ (loop_iteration ⟨2047, 1, true, []⟩).end_of_conversion = 0
      ∧ (loop_iterations 5 (loop_iteration ⟨2047, 1, true, []⟩)).end_of_conversion = 0 :=
  ⟨by decide, (flag_stays_clear ⟨2047, 1, true, []⟩ 5 (by decide)).2.1,
   (flag_stays_clear ⟨2047, 1, true, []⟩ 5 (by decide)).2.2.1⟩

/-- C7: with the Ready Flag clear, one loop iteration, and hence any number of
them, changes nothing: Latest Sample, the flag, the LED and the serial output
are all as before. -/
theorem loop_is_noop_when_flag_clear (s : State) (k : Nat) (hflag : s.end_of_conversion = 0) :
    loop_iteration s = s ∧ loop_iterations k s = s :=
  ⟨loop_iteration_of_clear s hflag, loop_iterations_of_clear k s hflag⟩

/-- Witness for C7: a state with the flag clear and an unreported sample. -/
theorem loop_is_noop_when_flag_clear_witness :
    loop_iteration ⟨2047, 0, true, ['x']⟩ = ⟨2047, 0, true, ['x']⟩
      ∧ loop_iterations 3 ⟨2047, 0, true, ['x']⟩ = ⟨2047, 0, true, ['x']⟩ :=
  loop_is_noop_when_flag_clear ⟨2047, 0, true, ['x']⟩ 3 (by decide)

/-! ## Bring-up -/

theorem run_invariant (P : Machine → Prop) (xmc4 : Bool) (bsp : Nat)
    (hstep : ∀ m e, P m → P (step xmc4 bsp m e)) :
    ∀ (es : List Event) (m : Machine), P m → P (run xmc4 bsp m es) := by
  intro es
  induction es with
  | nil => intro m h; exact h
  | cons e es ih => intro m h; exact ih _ (hstep m e h)

theorem failed_bringup_step (xmc4 led0 : Bool) (bsp : Nat) (hfail : bsp ≠ CY_RSLT_SUCCESS)
    (m : Machine) (e : Event) (h : failed_bringup led0 bsp m) :
    failed_bringup led0 bsp (step xmc4 bsp m e) := by
  obtain ⟨st, pc, result, arg, irq, calls⟩ := m
  cases e with
  | irq v =>
    have hirq : irq = false := h.2.1
    simpa [step, hirq] using h
  | main =>
    cases pc <;> simp_all [failed_bringup, step, main_step, CY_ASSERT]

theorem good_bringup_step (xmc4 : Bool) (m : Machine) (e : Event) (h : good_bringup m) :
    good_bringup (step xmc4 CY_RSLT_SUCCESS m e) := by
  obtain ⟨st, pc, result, arg, irq, calls⟩ := m
  cases e with
  | irq v =>
    cases pc <;> simp_all [good_bringup, step, in_loop, handler_fields]
  | main =>
    cases pc <;> simp_all [good_bringup, step, main_step, in_loop]
    split_ifs <;> simp

theorem bringup_progress (xmc4 : Bool) (bsp : Nat) :
    ∀ (es : List Event) (m : Machine),
      min (bringup_stage m.pc + main_events es) 4 ≤ bringup_stage (run xmc4 bsp m es).pc := by
  intro es
  induction es with
  | nil => intro m; simp [run, main_events]
  | cons e es ih =>
    intro m
    refine le_trans ?_ (ih (step xmc4 bsp m e))
    obtain ⟨st, pc, result, arg, irq, calls⟩ := m
    cases e with
    | irq v =>
      simp only [step, main_events]
      split_ifs <;> simp
    | main =>
      cases pc <;> simp only [step, main_step, main_events, bringup_stage, CY_ASSERT] <;>
        (try split_ifs) <;> (try simp only [bringup_stage, if_false, Bool.false_eq_true]) <;>
        first | omega | contradiction

/-- C4: if `cybsp_init` returns anything but `CY_RSLT_SUCCESS`, then along every
schedule `main` never initialises the debug UART, never enables the ADC
interrupt, never enters the loop, nothing is ever sent and the handler never
runs, and from its third statement on `main` sits in the assertion trap; if it
returns `CY_RSLT_SUCCESS`, the calls are made in the order `cybsp_init`,
`cy_retarget_io_init`, `NVIC_EnableIRQ`, the interrupt is enabled exactly once
all three are done, the loop is entered exactly then, nothing is sent before,
and after four statements `main` is in the loop. -/
theorem init_failure_is_fatal (xmc4 led0 : Bool) (bsp : Nat) (es : List Event) :
    (bsp ≠ CY_RSLT_SUCCESS →
        Call.cy_retarget_io_init ∉ (run xmc4 bsp (startup led0) es).calls
        ∧ Call.NVIC_EnableIRQ ∉ (run xmc4 bsp (startup led0) es).calls
        ∧ (run xmc4 bsp (startup led0) es).irq_enabled = false
        ∧ in_loop (run xmc4 bsp (startup led0) es).pc = false
        ∧ (run xmc4 bsp (startup led0) es).st = (startup led0).st
        ∧ (run xmc4 bsp (startup led0) es).st.uart = []
        ∧ (3 ≤ main_events es → (run xmc4 bsp (startup led0) es).pc = MainPC.trap))
    ∧ (bsp = CY_RSLT_SUCCESS →
        (run xmc4 bsp (startup led0) es).calls
            <+: [Call.cybsp_init, Call.cy_retarget_io_init, Call.NVIC_EnableIRQ]
        ∧ ((run xmc4 bsp (startup led0) es).irq_enabled = true ↔
            (run xmc4 bsp (startup led0) es).calls
              = [Call.cybsp_init, Call.cy_retarget_io_init, Call.NVIC_EnableIRQ])
        ∧ (in_loop (run xmc4 bsp (startup led0) es).pc = true ↔
            (run xmc4 bsp (startup led0) es).calls
              = [Call.cybsp_init, Call.cy_retarget_io_init, Call.NVIC_EnableIRQ])
        ∧ (in_loop (run xmc4 bsp (startup led0) es).pc = false →
            (run xmc4 bsp (startup led0) es).st.uart = [])
        ∧ (4 ≤ main_events es → in_loop (run xmc4 bsp (startup led0) es).pc = true)) := by
  have hprog := bringup_progress xmc4 bsp es (startup led0)
  constructor
  · intro hfail
    have hinv : failed_bringup led0 bsp (run xmc4 bsp (startup led0) es) :=
      run_invariant (failed_bringup led0 bsp) xmc4 bsp
        (fun m e h => failed_bringup_step xmc4 led0 bsp hfail m e h) es (startup led0)
        (by simp [failed_bringup, startup])
    generalize run xmc4 bsp (startup led0) es = m at hinv hprog
    obtain ⟨st, pc, result, arg, irq, calls⟩ := m
    obtain ⟨hst, hirq, hpc⟩ := hinv
    simp only at hst hirq hpc hprog
    cases pc <;> simp_all [in_loop, startup, bringup_stage] <;> omega
  · intro hok
    subst hok
    have hinv : good_bringup (run xmc4 CY_RSLT_SUCCESS (startup led0) es) :=
      run_invariant good_bringup xmc4 CY_RSLT_SUCCESS
        (fun m e h => good_bringup_step xmc4 m e h) es (startup led0)
        (by simp [good_bringup, startup, in_loop])
    generalize run xmc4 CY_RSLT_SUCCESS (startup led0) es = m at hinv hprog
    obtain ⟨st, pc, result, arg, irq, calls⟩ := m
    obtain ⟨hirq, hpc⟩ := hinv
    simp only at hirq hpc hprog
    cases pc <;> simp_all [in_loop, startup, bringup_stage] <;> omega

/-! ## The invariant of the interleaved system -/

theorem reports_text_append (rs : List Report) (r : Report) :
    reports_text (rs ++ [r]) = reports_text rs ++ printf_ADC_VALUE (promoted_int r.value) := by
  induction rs with
  | nil => simp [reports_text]
  | cons a rs ih => simp [reports_text, ih]

theorem sample_number_append (samples : List Nat) (w k v : Nat)
    (h : sample_number samples k = some v) : sample_number (samples ++ [w]) k = some v := by
  unfold sample_number at h ⊢
  split_ifs at h ⊢ with hk
  have hlt : k - 1 < samples.length := by
    by_contra hge
    rw [List.getElem?_eq_none (by omega)] at h
    exact Option.noConfusion h
  rw [List.getElem?_append_left hlt]
  exact h

theorem sample_number_latest (samples : List Nat) (hne : samples ≠ []) :
    sample_number samples samples.length = some ((samples.getLast?).getD 0) := by
  unfold sample_number
  have hpos : samples.length ≠ 0 := by
    intro h0
    exact hne (List.length_eq_zero.mp h0)
  rw [if_neg hpos, ← List.getLast?_eq_getElem?]
  cases hl : samples.getLast? with
  | none => exact absurd (List.getLast?_eq_none_iff.mp hl) hne
  | some v => rfl

theorem sample_number_mem (samples : List Nat) (k v : Nat)
    (h : sample_number samples k = some v) :
    1 ≤ k ∧ k ≤ samples.length ∧ v ∈ samples := by
  unfold sample_number at h
  split_ifs at h with hk
  have hm := List.getElem?_mem h
  have hlt : k - 1 < samples.length := by
    by_contra hge
    rw [List.getElem?_eq_none (by omega)] at h
    exact Option.noConfusion h
  exact ⟨by omega, by omega, hm⟩

theorem consistent_startup (led0 : Bool) : consistent (startup led0) History.empty := by
  simp [consistent, startup, History.empty, reports_text]

theorem consistent_irq (xmc4 : Bool) (bsp : Nat) (m : Machine) (h : History)
    (group : Nat → Nat) (hc : consistent m h) :
    consistent (step xmc4 bsp m (Event.irq group)) (observe m h (Event.irq group)) := by
  obtain ⟨st, pc, result, arg, irq, calls⟩ := m
  obtain ⟨samples, load_seq, reports, last⟩ := h
  obtain ⟨ha, hf, hr, hu, hpc⟩ := hc
  simp only at ha hf hr hu hpc
  obtain ⟨hha, hhf, hhu⟩ := handler_fields xmc4 group st
  cases irq with
  | false => exact ⟨ha, hf, hr, hu, hpc⟩
  | true =>
    simp only [step, observe, if_true]
    refine ⟨?_, ?_, ?_, ?_, ?_⟩
    · simp [hha, XMC_VADC_GROUP_GetResult]
    · intro _; simp
    · intro r hmem
      exact sample_number_append samples _ r.seq r.value (hr r hmem)
    · simp [hhu, hu]
    · cases pc <;> simp_all [irq_in_window]
      · obtain ⟨h1, _⟩ := hpc
        split_ifs at h1 <;> omega
      · omega
      · exact ⟨by omega, sample_number_append samples _ load_seq arg hpc.2.2.1⟩
      · omega

theorem latest_reported_append (samples : List Nat) (load_seq : Nat) (reports : List Report)
    (last : Option MainPC) (value : Nat) :
    latest_reported { samples := samples, load_seq := load_seq,
                      reports := reports ++ [⟨value, samples.length⟩],
                      last_irq_pc := last } = true := by
  simp [latest_reported]

theorem consistent_main (xmc4 : Bool) (bsp : Nat) (m : Machine) (h : History)
    (hc : consistent m h) :
    consistent (step xmc4 bsp m Event.main) (observe m h Event.main) := by
  obtain ⟨st, pc, result, arg, irq, calls⟩ := m
  obtain ⟨samples, load_seq, reports, last⟩ := h
  obtain ⟨ha, hf, hr, hu, hpc⟩ := hc
  simp only at ha hf hr hu hpc
  cases pc with
  | call_cybsp_init => exact ⟨ha, hf, hr, hu, by simpa [step, main_step] using hpc⟩
  | test_result =>
    simp only [step, main_step, observe]
    split_ifs
    · exact ⟨ha, hf, hr, hu, by simpa using hpc⟩
    · exact ⟨ha, hf, hr, hu, by simpa using hpc⟩
  | cy_assert => exact ⟨ha, hf, hr, hu, by simpa [step, main_step, CY_ASSERT] using hpc⟩
  | trap => exact ⟨ha, hf, hr, hu, hpc⟩
  | call_retarget_io_init => exact ⟨ha, hf, hr, hu, by simpa [step, main_step] using hpc⟩
  | call_NVIC_EnableIRQ =>
    refine ⟨ha, hf, hr, hu, ?_⟩
    simp only at hpc
    simp [step, main_step, observe, hpc.2.1, hpc.2.2.1, hpc.2.2.2]
  | loop_test =>
    simp only [step, main_step, observe]
    split_ifs with hflag
    · refine ⟨ha, hf, hr, hu, ?_⟩
      simp only at hpc ⊢
      rw [if_pos hflag] at hpc
      exact ⟨hpc.1, hflag, hpc.2.1⟩
    · exact ⟨ha, hf, hr, hu, hpc⟩
  | loop_load =>
    simp only [step, main_step, observe]
    simp only at hpc
    refine ⟨ha, hf, hr, hu, hpc.1, hpc.2.1, hpc.2.2, ?_, Or.inl rfl⟩
    simp only
    rw [ha]
    exact sample_number_latest samples (hf hpc.2.1)
  | loop_printf =>
    simp only [step, main_step, observe]
    simp only at hpc
    obtain ⟨hirq, hflag, hlen, harg, hwin⟩ := hpc
    refine ⟨ha, hf, ?_, ?_, hirq, hflag, ?_, ?_⟩
    · intro r hmem
      rcases List.mem_append.mp hmem with hold | hnew
      · exact hr r hold
      · rw [List.mem_singleton.mp hnew]
        exact harg
    · simp only
      rw [reports_text_append, hu]
    · simp only [List.length_append, List.length_singleton]
      exact hlen
    · rcases hwin with heq | hw
      · left
        rw [heq]
        exact latest_reported_append samples samples.length reports last arg
      · right
        exact hw
  | loop_clear =>
    simp only [step, main_step, observe]
    simp only at hpc
    obtain ⟨hirq, hflag, hlen, hrep⟩ := hpc
    refine ⟨ha, ?_, hr, hu, hirq, ?_, ?_⟩
    · intro hne
      exact absurd rfl hne
    · simpa using hlen
    · intro _
      right
      exact hrep

theorem run_hist_consistent (xmc4 : Bool) (bsp : Nat) :
    ∀ (es : List Event) (mh : Machine × History), consistent mh.1 mh.2 →
      consistent (run_hist xmc4 bsp mh es).1 (run_hist xmc4 bsp mh es).2 := by
  intro es
  induction es with
  | nil => intro mh hc; exact hc
  | cons e es ih =>
    intro mh hc
    refine ih (step xmc4 bsp mh.1 e, observe mh.1 mh.2 e) ?_
    cases e with
    | main => exact consistent_main xmc4 bsp mh.1 mh.2 hc
    | irq v => exact consistent_irq xmc4 bsp mh.1 mh.2 v hc

theorem run_hist_fst (xmc4 : Bool) (bsp : Nat) :
    ∀ (es : List Event) (mh : Machine × History),
      (run_hist xmc4 bsp mh es).1 = run xmc4 bsp mh.1 es := by
  intro es
  induction es with
  | nil => intro mh; rfl
  | cons e es ih => intro mh; exact ih (step xmc4 bsp mh.1 e, observe mh.1 mh.2 e)

theorem main_steps_are_loop_iteration (bsp : Nat) (m : Machine)
    (hpc : m.pc = MainPC.loop_test) :
    (m.st.end_of_conversion = 0 → main_step bsp m = m)
      ∧ (m.st.end_of_conversion ≠ 0 →
          (main_step bsp (main_step bsp (main_step bsp (main_step bsp m)))).st
              = loop_iteration m.st
            ∧ (main_step bsp (main_step bsp (main_step bsp (main_step bsp m)))).pc
              = MainPC.loop_test) := by
  obtain ⟨st, pc, result, arg, irq, calls⟩ := m
  simp only at hpc
  subst hpc
  constructor
  · intro h0
    have h0' : st.end_of_conversion = 0 := h0
    simp [main_step, h0']
  · intro h1
    have h1' : st.end_of_conversion ≠ 0 := h1
    simp [main_step, loop_iteration, h1']

theorem digitChar_ne_line_feed (n : Nat) : Nat.digitChar (n % 10) ≠ Char.ofNat 10 := by
  have hk : n % 10 < 10 := Nat.mod_lt n (by decide)
  generalize n % 10 = k at hk
  interval_cases k <;> decide

theorem toDigitsCore_count_line_feed :
    ∀ (fuel n : Nat) (ds : List Char),
      (Nat.toDigitsCore 10 fuel n ds).count (Char.ofNat 10) = ds.count (Char.ofNat 10) := by
  intro fuel
  induction fuel with
  | zero => intro n ds; rfl
  | succ fuel ih =>
    intro n ds
    simp only [Nat.toDigitsCore]
    split_ifs
    · rw [List.count_cons_of_ne (digitChar_ne_line_feed n).symm]
    · rw [ih, List.count_cons_of_ne (digitChar_ne_line_feed n).symm]

theorem printf_count_line_feed (x : Int) :
    (printf_ADC_VALUE x).count (Char.ofNat 10) = 1 := by
  have hd : ∀ n : Nat, (Nat.toDigits 10 n).count (Char.ofNat 10) = 0 := by
    intro n
    unfold Nat.toDigits
    rw [toDigitsCore_count_line_feed]
    rfl
  have hf : (format_d x).count (Char.ofNat 10) = 0 := by
    unfold format_d
    split_ifs
    · rw [List.count_cons_of_ne (by decide), hd]
    · exact hd _
  unfold printf_ADC_VALUE
  rw [List.count_append, List.count_append, hf]
  decide

theorem reports_text_count_line_feed (rs : List Report) :
    (reports_text rs).count (Char.ofNat 10) = rs.length := by
  induction rs with
  | nil => rfl
  | cons r rs ih =>
    simp only [reports_text, List.count_append, printf_count_line_feed, ih, List.length_cons]
    omega

/-- Witness for C4: a failing return value 1 with interrupt requests in the
schedule, and the successful return value with four statements of `main`. -/
theorem init_failure_is_fatal_witness :
    ((1 : Nat) ≠ CY_RSLT_SUCCESS
        ∧ (run true 1 (startup false) schedule_after_failure).pc = MainPC.trap
        ∧ (run true 1 (startup false) schedule_after_failure).st.uart = []
        ∧ (run true 1 (startup false) schedule_after_failure).irq_enabled = false)
      ∧ in_loop (run true CY_RSLT_SUCCESS (startup false)
          [Event.main, Event.main, Event.main, Event.main]).pc = true :=
  ⟨⟨by decide,
    ((init_failure_is_fatal true false 1 schedule_after_failure).1 (by decide)).2.2.2.2.2.2
      (by decide),
    ((init_failure_is_fatal true false 1 schedule_after_failure).1 (by decide)).2.2.2.2.2.1,
    ((init_failure_is_fatal true false 1 schedule_after_failure).1 (by decide)).2.2.1⟩,
   ((init_failure_is_fatal true false CY_RSLT_SUCCESS
      [Event.main, Event.main, Event.main, Event.main]).2 rfl).2.2.2.2 (by decide)⟩

/-! ## Preemption of the loop by the handler -/

/-- C8: along every schedule from reset, with the handler free to run between
any two steps of `main`: whenever the Ready Flag is set, Latest Sample is the
value read by the most recent handler invocation; every number printed is the
value read by invocation number `seq`, where `seq >= 1` is the count of
invocations completed when `main` read `adc_result` for that `printf` (so never
the startup value and never an older sample); and the serial output consists
of exactly those reports. -/
theorem loop_never_reads_stale_sample (xmc4 led0 : Bool) (bsp : Nat) (es : List Event)
    (m : Machine) (h : History)
    (hrun : run_hist xmc4 bsp (startup led0, History.empty) es = (m, h)) :
    (m.st.end_of_conversion ≠ 0 → h.samples.getLast? = some m.st.adc_result)
      ∧ (∀ r ∈ h.reports, 1 ≤ r.seq ∧ sample_number h.samples r.seq = some r.value)
      ∧ m.st.uart = reports_text h.reports := by
  have hc := run_hist_consistent xmc4 bsp es (startup led0, History.empty)
    (consistent_startup led0)
  rw [hrun] at hc
  obtain ⟨ha, hf, hr, hu, _⟩ := hc
  refine ⟨?_, ?_, hu⟩
  · intro hflag
    have hne := hf hflag
    cases hl : h.samples.getLast? with
    | none => exact absurd (List.getLast?_eq_none_iff.mp hl) hne
    | some v =>
      have hav : m.st.adc_result = v := by
        have ha' := ha
        rw [hl] at ha'
        exact ha'
      rw [hav]
  · intro r hmem
    exact ⟨(sample_number_mem h.samples r.seq r.value (hr r hmem)).1, hr r hmem⟩

/-- Witness for C8: sample 100 is loaded, sample 200 arrives before the
`printf` runs; the flag is set, Latest Sample is 200, and the one number
printed is 100, the value of invocation 1, the latest one at the load. -/
theorem loop_never_reads_stale_sample_witness :
    (run_hist true 0 (startup false, History.empty)
        schedule_second_sample_before_print).1.st.end_of_conversion ≠ 0
      ∧ (run_hist true 0 (startup false, History.empty)
          schedule_second_sample_before_print).2.samples.getLast?
        = some (run_hist true 0 (startup false, History.empty)
          schedule_second_sample_before_print).1.st.adc_result
      ∧ (run_hist true 0 (startup false, History.empty)
          schedule_second_sample_before_print).2.reports = [⟨100, 1⟩]
      ∧ sample_number (run_hist true 0 (startup false, History.empty)
          schedule_second_sample_before_print).2.samples 1 = some 100 :=
  ⟨by decide,
   (loop_never_reads_stale_sample true false 0 schedule_second_sample_before_print _ _ rfl).1
     (by decide),
   by decide,
   ((loop_never_reads_stale_sample true false 0 schedule_second_sample_before_print _ _ rfl).2.1
     ⟨100, 1⟩ (by decide)).2⟩

/-- C9 as stated fails: with a conversion between the `printf` and
`end_of_conversion=0`, the flag ends up clear although two conversions have
occurred and the current Latest Sample 200 has not been reported: the serial
output holds the line for 100 only. -/
theorem sample_lost_between_printf_and_clear :
    (run_hist true CY_RSLT_SUCCESS (startup false, History.empty)
        schedule_second_sample_before_clear).1.st.end_of_conversion = 0
      ∧ (run_hist true CY_RSLT_SUCCESS (startup false, History.empty)
          schedule_second_sample_before_clear).2.samples = [100, 200]
      ∧ (run_hist true CY_RSLT_SUCCESS (startup false, History.empty)
          schedule_second_sample_before_clear).1.st.adc_result = 200
      ∧ (run_hist true CY_RSLT_SUCCESS (startup false, History.empty)
          schedule_second_sample_before_clear).1.st.uart = "ADC VALUE: 100\r\n".toList
      ∧ (run_hist true CY_RSLT_SUCCESS (startup false, History.empty)
          schedule_second_sample_before_clear).2.reports = [⟨100, 1⟩]
      ∧ latest_reported (run_hist true CY_RSLT_SUCCESS (startup false, History.empty)
          schedule_second_sample_before_clear).2 = false := by
  decide

/-- C9 amended: along every schedule from reset, the Ready Flag is clear only
if no conversion has occurred yet, or the current Latest Sample has been
reported (a report loaded after the latest handler invocation, carrying the
value of `adc_result`), or the latest handler invocation ran after `main` had
loaded the `printf` argument and before it executed `end_of_conversion=0`. -/
theorem flag_clear_means_reported_or_preempted (xmc4 led0 : Bool) (bsp : Nat)
    (es : List Event) (m : Machine) (h : History)
    (hrun : run_hist xmc4 bsp (startup led0, History.empty) es = (m, h))
    (hflag : m.st.end_of_conversion = 0) :
    h.samples = []
      ∨ (∃ r ∈ h.reports, r.seq = h.samples.length ∧ r.value = m.st.adc_result)
      ∨ irq_in_window h = true := by
  have hc := run_hist_consistent xmc4 bsp es (startup led0, History.empty)
    (consistent_startup led0)
  rw [hrun] at hc
  obtain ⟨ha, _, hr, _, hpc⟩ := hc
  have hcases : h.samples = [] ∨ latest_reported h = true ∨ irq_in_window h = true := by
    cases hp : m.pc <;> rw [hp] at hpc <;> simp only at hpc
    case loop_test => exact hpc.2.2 hflag
    case loop_load => exact absurd hflag hpc.2.1
    case loop_printf => exact absurd hflag hpc.2.1
    case loop_clear => exact absurd hflag hpc.2.1
    all_goals exact Or.inl hpc.2.2.1
  rcases hcases with h0 | hrep | hwin
  · exact Or.inl h0
  · by_cases hne : h.samples = []
    · exact Or.inl hne
    · right
      left
      obtain ⟨r, hmem, hseq⟩ := List.any_eq_true.mp hrep
      have hseq' : r.seq = h.samples.length := by simpa using hseq
      refine ⟨r, hmem, hseq', ?_⟩
      have h1 := hr r hmem
      rw [hseq', sample_number_latest h.samples hne] at h1
      rw [ha]
      exact (Option.some.inj h1).symm
  · exact Or.inr (Or.inr hwin)

/-- Witness for C9 amended: after one conversion and one full pass through the
loop body the flag is clear and the sample 2047 has been reported. -/
theorem flag_clear_means_reported_or_preempted_witness :
    (run_hist true 0 (startup false, History.empty) schedule_one_sample).1.st.end_of_conversion = 0
      ∧ ((run_hist true 0 (startup false, History.empty) schedule_one_sample).2.samples = []
        ∨ (∃ r ∈ (run_hist true 0 (startup false, History.empty)
              schedule_one_sample).2.reports,
            r.seq = (run_hist true 0 (startup false, History.empty)
                schedule_one_sample).2.samples.length
              ∧ r.value = (run_hist true 0 (startup false, History.empty)
                schedule_one_sample).1.st.adc_result)
        ∨ irq_in_window (run_hist true 0 (startup false, History.empty)
            schedule_one_sample).2 = true) :=
  ⟨by decide,
   flag_clear_means_reported_or_preempted true false 0 schedule_one_sample _ _ rfl (by decide)⟩

/-- C10: along every schedule from reset the serial output consists of the
report lines and nothing else, the number of lines (one line feed each) is at
most the number of handler invocations so far, every reported number is the
value read by a handler invocation that had completed when `main` loaded it,
and with no conversion yet nothing has been sent. -/
theorem reports_bounded_by_conversions (xmc4 led0 : Bool) (bsp : Nat) (es : List Event)
    (m : Machine) (h : History)
    (hrun : run_hist xmc4 bsp (startup led0, History.empty) es = (m, h)) :
    m.st.uart = reports_text h.reports
      ∧ m.st.uart.count (Char.ofNat 10) = h.reports.length
      ∧ h.reports.length ≤ h.samples.length
      ∧ (∀ r ∈ h.reports,
          r.value ∈ h.samples ∧ sample_number h.samples r.seq = some r.value)
      ∧ (h.samples = [] → m.st.uart = []) := by
  have hc := run_hist_consistent xmc4 bsp es (startup led0, History.empty)
    (consistent_startup led0)
  rw [hrun] at hc
  obtain ⟨_, _, hr, hu, hpc⟩ := hc
  have hlen : h.reports.length ≤ h.samples.length := by
    cases hp : m.pc <;> rw [hp] at hpc <;> simp only at hpc
    case loop_test => exact le_trans (Nat.le_add_right _ _) hpc.2.1
    case loop_load => exact le_trans (Nat.le_add_right _ _) hpc.2.2
    case loop_printf => exact le_trans (Nat.le_add_right _ _) hpc.2.2.1
    case loop_clear => exact hpc.2.2.1
    all_goals simp [hpc.2.2.2]
  refine ⟨hu, ?_, hlen, ?_, ?_⟩
  · rw [hu, reports_text_count_line_feed]
  · intro r hmem
    exact ⟨(sample_number_mem h.samples r.seq r.value (hr r hmem)).2.2, hr r hmem⟩
  · intro h0
    rw [h0] at hlen
    have hnil : h.reports = [] := List.length_eq_zero.mp (Nat.le_zero.mp hlen)
    rw [hu, hnil]
    rfl

/-- Witness for C10: two conversions, one report; the serial output is the
single line for the sample 100. -/
theorem reports_bounded_by_conversions_witness :
    (run_hist true 0 (startup false, History.empty)
        schedule_second_sample_before_clear).2.samples = [100, 200]
      ∧ (run_hist true 0 (startup false, History.empty)
          schedule_second_sample_before_clear).1.st.uart.count (Char.ofNat 10) = 1
      ∧ (run_hist true 0 (startup false, History.empty)
          schedule_second_sample_before_clear).2.reports.length
        ≤ (run_hist true 0 (startup false, History.empty)
          schedule_second_sample_before_clear).2.samples.length :=
  ⟨by decide,
   by decide,
   (reports_bounded_by_conversions true false 0 schedule_second_sample_before_clear _ _
     rfl).2.2.1⟩

end CCU8VADC
